import Mathlib

/-!
# Task manager backend (taskmanager/backend/main.go): in-memory handlers

A shallow embedding of the in-memory HTTP handlers of `main.go`:
the two process-wide maps `users` and `tasks`, the id generator
(`generateID`, `randomString`), the credential handlers
(`registerHandler`, `loginHandler`), the task handlers and `authMiddleware`.

Modelling conventions.

* A Go `map[string]V` is an association list `GoMap V`; `m[k]` is `GoMap.get?`,
  `m[k] = v` is `GoMap.set`, and `for _, v := range m` visits the entries in list
  order (Go leaves the order unspecified; statements quantify over every list).
* Library calls whose result is not determined by the repository are inputs of
  the handler that makes them: the outcome of `c.ShouldBindJSON`, the bcrypt
  functions, the JWT signer and parser, and the values returned by successive
  calls of `time.Now()` (a function `clk : Nat → Time`, `clk k` being the value
  of the `k`-th call made while the handler runs).
* A runtime panic inside a handler is caught by the recovery middleware that
  `gin.Default()` installs, which answers 500 with an empty body.
-/

namespace TaskManager

/-! ## Go maps -/

/-- A Go `map[string]V`, as an association list. -/
abbrev GoMap (V : Type) := List (String × V)

/-- The lookup `v, ok := m[k]`. -/
def GoMap.get? {V : Type} : GoMap V → String → Option V
  | [], _ => none
  | (k0, v) :: rest, k => if k0 = k then some v else GoMap.get? rest k

/-- The assignment `m[k] = v`: overwrites the entry of `k` when there is one. -/
def GoMap.set {V : Type} : GoMap V → String → V → GoMap V
  | [], k, v => [(k, v)]
  | (k0, v0) :: rest, k, v =>
      if k0 = k then (k, v) :: rest else (k0, v0) :: GoMap.set rest k v

/-- The keys of a map, in iteration order. -/
def GoMap.keys {V : Type} (m : GoMap V) : List String := m.map Prod.fst

/-- The values of a map, in iteration order. -/
def GoMap.values {V : Type} (m : GoMap V) : List V := m.map Prod.snd

/-! ## time.Time -/

/-- A `time.Time`: an instant, in nanoseconds since the Unix epoch (UTC). -/
structure Time where
  nsec : Int
  deriving DecidableEq, Repr

/-- Two-complement wrap-around of a mathematical integer into `int64`. -/
def wrapInt64 (x : Int) : Int := (x + 2 ^ 63) % 2 ^ 64 - 2 ^ 63

/-- The zero `time.Time`: January 1, year 1, 00:00:00 UTC. -/
def Time.zero : Time := ⟨-62135596800 * 1000000000⟩

/-- The method `t.IsZero()`. -/
def Time.IsZero (t : Time) : Bool := decide (t = Time.zero)

/-- The method `t.UnixNano()`, an `int64`. -/
def Time.UnixNano (t : Time) : Int := wrapInt64 t.nsec

/-- The method `t.Unix()`: whole seconds since the epoch. -/
def Time.Unix (t : Time) : Int := t.nsec / 1000000000

/-- The method `t.Add(d)`, `d` in nanoseconds. -/
def Time.Add (t : Time) (d : Int) : Time := ⟨t.nsec + d⟩

/-- The constant `time.Hour`, in nanoseconds. -/
def Hour : Int := 3600 * 1000000000

/-- The civil date (year, month, day) of a day count since 1970-01-01. -/
def civilFromDays (days : Int) : Int × Int × Int :=
  let z := days + 719468
  let era := z / 146097
  let doe := z - era * 146097
  let yoe := (doe - doe / 1460 + doe / 36524 - doe / 146096) / 365
  let doy := doe - (365 * yoe + yoe / 4 - yoe / 100)
  let mp := (5 * doy + 2) / 153
  let d := doy - (153 * mp + 2) / 5 + 1
  let m := if mp < 10 then mp + 3 else mp - 9
  let y := yoe + era * 400 + (if m ≤ 2 then 1 else 0)
  (y, m, d)

/-- Two decimal digits. -/
def pad2 (n : Int) : String :=
  String.mk [Nat.digitChar (n.toNat / 10 % 10), Nat.digitChar (n.toNat % 10)]

/-- Four decimal digits. -/
def pad4 (n : Int) : String :=
  String.mk [Nat.digitChar (n.toNat / 1000 % 10), Nat.digitChar (n.toNat / 100 % 10),
    Nat.digitChar (n.toNat / 10 % 10), Nat.digitChar (n.toNat % 10)]

/-- The call `t.Format("20060102150405")`: year, month, day, hour, minute and
second as fourteen digits (in UTC, for years 0 to 9999). -/
def Time.Format (t : Time) : String :=
  let secs := t.nsec / 1000000000
  let days := secs / 86400
  let rem := secs % 86400
  let (y, m, d) := civilFromDays days
  pad4 y ++ pad2 m ++ pad2 d ++ pad2 (rem / 3600) ++ pad2 (rem % 3600 / 60) ++ pad2 (rem % 60)

/-! ## Identifiers -/

/-- The constant `letters` of `randomString`. -/
def letters : String := "abcdefghijklmnopqrstuvwxyzABCDEFGHIJKLMNOPQRSTUVWXYZ0123456789"

/-- The indexing `letters[idx]` for an `int64` index: `none` is the runtime
panic of an index out of range. -/
def lettersAt (idx : Int) : Option Char :=
  if idx < 0 then none else letters.toList[idx.toNat]?

/-- One iteration of the loop of `randomString`: `seed := time.Now().UnixNano() + int64(i)`
and `letters[seed % int64(len(letters))]`, with the truncated remainder of Go. -/
def randomByte (now : Time) (i : Nat) : Option Char :=
  let seed := wrapInt64 (now.UnixNano + (i : Int))
  lettersAt (Int.tmod seed (letters.length : Int))

/-- The loop of `randomString` from index `i`, with `k` iterations left;
iteration `j` makes the `j`-th call of `time.Now()`. -/
def randomStringFrom (clk : Nat → Time) (i : Nat) : Nat → Option (List Char)
  | 0 => some []
  | k + 1 =>
      match randomByte (clk i) i with
      | none => none
      | some c => (randomStringFrom clk (i + 1) k).map (fun cs => c :: cs)

/-- The function `randomString(n)`; `none` is a panic. -/
def randomString (clk : Nat → Time) (n : Nat) : Option String :=
  (randomStringFrom clk 0 n).map String.mk

/-- The function `generateID()`: reading `clk 0` is formatted, readings
`clk 1 .. clk 6` are those of `randomString(6)`. -/
def generateID (clk : Nat → Time) : Option String :=
  (randomString (fun k => clk (k + 1)) 6).map (fun r => (clk 0).Format ++ "-" ++ r)

/-! ## Data model -/

/-- The struct `User`. -/
structure User where
  ID : String
  Username : String
  Email : String
  Password : String
  CreatedAt : Time
  deriving DecidableEq, Repr

/-- The struct `Task`. -/
structure Task where
  ID : String
  Title : String
  Description : String
  Status : String
  Priority : String
  DueDate : Time
  UserID : String
  CreatedAt : Time
  deriving DecidableEq, Repr

/-- The struct `RegisterRequest`. -/
structure RegisterRequest where
  Username : String
  Email : String
  Password : String
  deriving DecidableEq, Repr

/-- The struct `LoginRequest`. -/
structure LoginRequest where
  Email : String
  Password : String
  deriving DecidableEq, Repr

/-- A value of a JWT claim (an `interface{}` decoded from JSON). -/
inductive ClaimValue where
  | str (s : String)
  | num (n : Int)
  | bool (b : Bool)
  | null
  deriving DecidableEq, Repr

/-- The type `jwt.MapClaims`. -/
abbrev MapClaims := GoMap ClaimValue

/-- The JSON bodies the handlers write. -/
inductive Body where
  | empty
  | error (msg : String)
  | message (msg : String)
  | userCreated (message id username email : String)
  | login (token id username email : String)
  | task (t : Task)
  | tasks (ts : Option (List Task))
  | user (u : User)
  deriving DecidableEq, Repr

/-- What a handler writes with `c.JSON(status, body)`. -/
structure Response where
  status : Nat
  body : Body
  deriving DecidableEq, Repr

/-- The answer of the recovery middleware to a panic. -/
def recovered : Response := ⟨500, .empty⟩

/-! ## Credential handlers -/

/-- The loop of `registerHandler` over `users`: does some stored user have the
email or the username of the request? -/
def userExists (users : GoMap User) (req : RegisterRequest) : Bool :=
  users.values.any (fun user => decide (user.Email = req.Email) || decide (user.Username = req.Username))

/-- The handler `registerHandler`. `bound` is the outcome of `c.ShouldBindJSON(&req)`,
`hash pw` that of `bcrypt.GenerateFromPassword(pw, bcrypt.DefaultCost)` (`none` for an
error); `generateID` reads `clk 0 .. clk 6` and `CreatedAt` is `clk 7`. -/
def registerHandler (hash : String → Option String) (clk : Nat → Time)
    (users : GoMap User) (bound : Except String RegisterRequest) : Response × GoMap User :=
  match bound with
  | .error err => (⟨400, .error err⟩, users)
  | .ok req =>
    if userExists users req then
      (⟨409, .error "User already exists"⟩, users)
    else
      match hash req.Password with
      | none => (⟨500, .error "Failed to hash password"⟩, users)
      | some hashedPassword =>
        match generateID clk with
        | none => (recovered, users)
        | some userID =>
          let user : User :=
            { ID := userID, Username := req.Username, Email := req.Email,
              Password := hashedPassword, CreatedAt := clk 7 }
          (⟨201, .userCreated "User created successfully" user.ID user.Username user.Email⟩,
            users.set userID user)

/-- The first loop of `loginHandler`: the first user, in iteration order, whose
email is the requested one. -/
def findUser (users : GoMap User) (email : String) : Option User :=
  users.values.find? (fun user => decide (user.Email = email))

/-- The claims `loginHandler` signs, the token being created at instant `now`. -/
def loginClaims (foundUser : User) (now : Time) : MapClaims :=
  [("user_id", .str foundUser.ID), ("email", .str foundUser.Email),
   ("exp", .num (now.Add (24 * Hour)).Unix)]

/-- The handler `loginHandler`. `verify h pw` holds when
`bcrypt.CompareHashAndPassword(h, pw)` returns no error; `sign claims` is the outcome of
`jwt.NewWithClaims(HS256, claims).SignedString(secret)` (`none` for an error). -/
def loginHandler (verify : String → String → Bool) (sign : MapClaims → Option String)
    (clk : Nat → Time) (users : GoMap User) (bound : Except String LoginRequest) : Response :=
  match bound with
  | .error err => ⟨400, .error err⟩
  | .ok req =>
    match findUser users req.Email with
    | none => ⟨401, .error "Invalid credentials"⟩
    | some foundUser =>
      if !verify foundUser.Password req.Password then
        ⟨401, .error "Invalid credentials"⟩
      else
        match sign (loginClaims foundUser (clk 0)) with
        | none => ⟨500, .error "Failed to generate token"⟩
        | some tokenString =>
          ⟨200, .login tokenString foundUser.ID foundUser.Username foundUser.Email⟩

/-- The handler `getUserHandler`: the stored user with the password blanked. -/
def getUserHandler (users : GoMap User) (userID : String) : Response :=
  match users.get? userID with
  | none => ⟨404, .error "User not found"⟩
  | some user => ⟨200, .user { user with Password := "" }⟩

/-! ## Task handlers -/

/-- The search `for i, task := range userTasks { if task.ID == taskID ... }`:
the first index holding a task with the given id. -/
def findTask (taskID : String) : List Task → Option Nat
  | [] => none
  | task :: rest =>
      if task.ID = taskID then some 0 else (findTask taskID rest).map (fun i => i + 1)

/-- The field assignments of `updateTaskHandler` on `userTasks[i]`. -/
def applyUpdates (task updates : Task) : Task :=
  let task := if updates.Title ≠ "" then { task with Title := updates.Title } else task
  let task := if updates.Description ≠ "" then { task with Description := updates.Description } else task
  let task := if updates.Status ≠ "" then { task with Status := updates.Status } else task
  let task := if updates.Priority ≠ "" then { task with Priority := updates.Priority } else task
  let task := if !updates.DueDate.IsZero then { task with DueDate := updates.DueDate } else task
  task

/-- The partial update as the specification words it: each of title, description,
status and priority is the payload field when that is non-empty and the stored one
otherwise, the due date is the payload one when that is non-zero and the stored one
otherwise, and id, owner and creation time are the stored ones. -/
def partialUpdateSpec (stored updates : Task) : Task :=
  { ID := stored.ID
    Title := if updates.Title = "" then stored.Title else updates.Title
    Description := if updates.Description = "" then stored.Description else updates.Description
    Status := if updates.Status = "" then stored.Status else updates.Status
    Priority := if updates.Priority = "" then stored.Priority else updates.Priority
    DueDate := if updates.DueDate = Time.zero then stored.DueDate else updates.DueDate
    UserID := stored.UserID
    CreatedAt := stored.CreatedAt }

/-- The handler `getTasksHandler`; the body is `tasks[userID]`, `none` being the
nil slice of an absent key. -/
def getTasksHandler (tasks : GoMap (List Task)) (userID : String) : Response :=
  ⟨200, .tasks (tasks.get? userID)⟩

/-- The handler `createTaskHandler`. `generateID` reads `clk 0 .. clk 6` and
`CreatedAt` is `clk 7`. -/
def createTaskHandler (clk : Nat → Time) (tasks : GoMap (List Task)) (userID : String)
    (bound : Except String Task) : Response × GoMap (List Task) :=
  match bound with
  | .error err => (⟨400, .error err⟩, tasks)
  | .ok task =>
    match generateID clk with
    | none => (recovered, tasks)
    | some id =>
      let task := { task with ID := id, UserID := userID, CreatedAt := clk 7 }
      (⟨201, .task task⟩, tasks.set userID ((tasks.get? userID).getD [] ++ [task]))

/-- The handler `updateTaskHandler`. -/
def updateTaskHandler (tasks : GoMap (List Task)) (userID taskID : String)
    (bound : Except String Task) : Response × GoMap (List Task) :=
  match bound with
  | .error err => (⟨400, .error err⟩, tasks)
  | .ok updates =>
    match tasks.get? userID with
    | none => (⟨404, .error "No tasks found"⟩, tasks)
    | some userTasks =>
      match findTask taskID userTasks with
      | none => (⟨404, .error "Task not found"⟩, tasks)
      | some i =>
        let userTasks := userTasks.modify (fun task => applyUpdates task updates) i
        (⟨200, .task ((userTasks.get? i).getD updates)⟩, tasks.set userID userTasks)

/-- The handler `deleteTaskHandler`; the new collection is
`append(userTasks[:i], userTasks[i+1:]...)`. -/
def deleteTaskHandler (tasks : GoMap (List Task)) (userID taskID : String) :
    Response × GoMap (List Task) :=
  match tasks.get? userID with
  | none => (⟨404, .error "No tasks found"⟩, tasks)
  | some userTasks =>
    match findTask taskID userTasks with
    | none => (⟨404, .error "Task not found"⟩, tasks)
    | some i =>
      (⟨200, .message "Task deleted"⟩,
        tasks.set userID (userTasks.take i ++ userTasks.drop (i + 1)))

/-! ## Auth gate -/

/-- The bytes of the string `"Bearer "`. -/
def bearer : List UInt8 := [66, 101, 97, 114, 101, 114, 32]

/-- The part of a `gin.Context` the middleware acts on. -/
structure Context where
  /-- The values stored with `c.Set`. -/
  Keys : GoMap String
  /-- The response written with `c.JSON`, if any. -/
  written : Option Response
  /-- Whether `c.Abort()` was called. -/
  aborted : Bool
  /-- Whether `c.Next()` was called: the request proceeds to the protected handler. -/
  proceeded : Bool
  deriving DecidableEq, Repr

/-- A fresh context. -/
def Context.new : Context := ⟨[], none, false, false⟩

/-- The method `c.Set(key, value)`. -/
def Context.Set (c : Context) (key value : String) : Context :=
  { c with Keys := c.Keys.set key value }

/-- The method `c.GetString(key)`. -/
def Context.GetString (c : Context) (key : String) : String :=
  (c.Keys.get? key).getD ""

/-- A call of `c.JSON` with status 401 and an error message, followed by `c.Abort()`. -/
def Context.unauthorized (c : Context) (msg : String) : Context :=
  { c with written := some ⟨401, .error msg⟩, aborted := true }

/-- A panic under the recovery middleware: 500 and the chain is aborted. -/
def Context.panicked (c : Context) : Context :=
  { c with written := some recovered, aborted := true }

/-- The type assertion `claims[key].(string)`; `none` is its panic. -/
def claimString (claims : MapClaims) (key : String) : Option String :=
  match claims.get? key with
  | some (.str s) => some s
  | _ => none

/-- The handler returned by `authMiddleware()`. `authHeader` is the value of the
`Authorization` header (empty when absent), as bytes; `parse tok` is `some claims` when
`jwt.Parse(tok, keyfunc)` returns no error and a valid token with those claims. -/
def authMiddleware (parse : List UInt8 → Option MapClaims) (authHeader : List UInt8)
    (c : Context) : Context :=
  if authHeader = [] then
    c.unauthorized "Authorization header required"
  else if authHeader.length < 7 ∨ authHeader.take 7 ≠ bearer then
    c.unauthorized "Invalid authorization format"
  else
    let tokenString := authHeader.drop 7
    match parse tokenString with
    | none => c.unauthorized "Invalid token"
    | some claims =>
      match claimString claims "user_id" with
      | none => c.panicked
      | some userID =>
        let c := c.Set "user_id" userID
        match claimString claims "email" with
        | none => c.panicked
        | some email =>
          let c := c.Set "user_email" email
          { c with proceeded := true }

/-! ## Clock range and reachable user stores -/

/-- Every reading `generateID` takes from the clock lies between the Unix epoch and
the last instant `UnixNano` can represent (less the loop index). -/
def ClockInRange (clk : Nat → Time) : Prop :=
  ∀ k, k < 7 → 0 ≤ (clk k).nsec ∧ (clk k).nsec < 2 ^ 63 - 6

/-- No two users share an email or a username. -/
def DistinctUsers (u v : User) : Prop := u.Email ≠ v.Email ∧ u.Username ≠ v.Username

/-- The user stores the process can be in: `users` starts empty and only
`registerHandler` writes it; the iteration order of a map is arbitrary. -/
inductive ReachableUsers : GoMap User → Prop
  | empty : ReachableUsers []
  | register (hash : String → Option String) (clk : Nat → Time) (users : GoMap User)
      (bound : Except String RegisterRequest) :
      ReachableUsers users → ReachableUsers (registerHandler hash clk users bound).2
  | reorder (users users2 : GoMap User) :
      List.Perm users users2 → ReachableUsers users → ReachableUsers users2

instance (clk : Nat → Time) : Decidable (ClockInRange clk) := by
  unfold ClockInRange
  infer_instance

/-! ## Sample data -/

/-- The instant 2023-11-14 22:13:20 UTC. -/
def tick : Time := ⟨1700000000 * 1000000000⟩

/-- A clock all of whose readings fall in the same tick. -/
def frozenClock : Nat → Time := fun _ => tick

/-- A clock that advances by one millisecond from one reading to the next,
starting `start` milliseconds after `tick`. -/
def runningClock (start : Nat) : Nat → Time :=
  fun k => ⟨tick.nsec + (((start + k) * 1000000 : Nat) : Int)⟩

/-- A stand-in for the bcrypt hash. -/
def sampleHash : String → Option String := fun pw => some ("bcrypt:" ++ pw)

/-- A stand-in for the bcrypt comparison matching `sampleHash`. -/
def sampleVerify : String → String → Bool := fun h pw => decide (h = "bcrypt:" ++ pw)

/-- A registration request. -/
def aliceRequest : RegisterRequest := ⟨"alice", "alice@example.com", "secret1"⟩

/-- A task as decoded from a request body that gives a title and a status. -/
def payload (title status : String) : Task :=
  ⟨"", title, "", status, "", Time.zero, "", Time.zero⟩

/-- A stored task of owner `userID`. -/
def storedTask (id title status userID : String) : Task :=
  ⟨id, title, "", status, "low", Time.zero, userID, tick⟩

/-- A task store with two owners. -/
def twoOwners : GoMap (List Task) :=
  [("alice", [storedTask "a1" "A" "todo" "alice", storedTask "a2" "B" "todo" "alice"]),
   ("bob", [storedTask "b1" "C" "todo" "bob"])]

/-- Task T1 is created under alice in an empty store, within one clock tick. -/
def createdOnce : Response × GoMap (List Task) :=
  createTaskHandler frozenClock [] "alice" (.ok (payload "T1" "todo"))

/-- Task T2 is created under alice after T1, within the same clock tick. -/
def createdTwice : Response × GoMap (List Task) :=
  createTaskHandler frozenClock createdOnce.2 "alice" (.ok (payload "T2" "todo"))

/-- Task T1 is created under alice in an empty store, on a running clock. -/
def createdFirst : Response × GoMap (List Task) :=
  createTaskHandler (runningClock 0) [] "alice" (.ok (payload "T1" "todo"))

/-- Task T2 is created under alice after T1, one second later. -/
def createdSecond : Response × GoMap (List Task) :=
  createTaskHandler (runningClock 1000) createdFirst.2 "alice" (.ok (payload "T2" "todo"))

/-- The task `createdFirst` answers with. -/
def taskOne : Task :=
  ⟨"20231114221320-CFILOR", "T1", "", "todo", "", Time.zero, "alice", ⟨1700000000007000000⟩⟩

/-- The task `createdSecond` answers with. -/
def taskTwo : Task :=
  ⟨"20231114221321-SVY147", "T2", "", "todo", "", Time.zero, "alice", ⟨1700000001007000000⟩⟩

/-- A user store holding alice, whose password is `secret1`. -/
def oneUser : GoMap User :=
  [("u1", ⟨"u1", "alice", "alice@example.com", "bcrypt:secret1", tick⟩)]

/-- A stand-in for the JWT signer. -/
def sampleSign : MapClaims → Option String :=
  fun claims => (claimString claims "user_id").map (fun id => "token-of-" ++ id)

/-- A stand-in for the JWT parser: it accepts the token `tok` (bytes 116, 111, 107). -/
def sampleParse : List UInt8 → Option MapClaims :=
  fun t => if t = [116, 111, 107] then
    some [("user_id", .str "u1"), ("email", .str "alice@example.com"), ("exp", .num 1700086400)]
  else none

/-- A second registration request, with another email and username. -/
def bobRequest : RegisterRequest := ⟨"bob", "bob@example.com", "secret2"⟩

/-! ## Lemmas on maps -/

theorem GoMap.get?_set {V : Type} (m : GoMap V) (k k2 : String) (v : V) :
    (m.set k v).get? k2 = if k = k2 then some v else m.get? k2 := by
  induction m with
  | nil => simp [GoMap.set, GoMap.get?]
  | cons e rest ih =>
    obtain ⟨k0, v0⟩ := e
    by_cases h0 : k0 = k
    · subst h0
      by_cases h2 : k0 = k2 <;> simp [GoMap.set, GoMap.get?, h2]
    · by_cases h2 : k0 = k2
      · subst h2
        have : ¬ k = k0 := fun h => h0 h.symm
        simp [GoMap.set, GoMap.get?, h0, this]
      · simp [GoMap.set, GoMap.get?, h0, h2, ih]

theorem GoMap.get?_set_self {V : Type} (m : GoMap V) (k : String) (v : V) :
    (m.set k v).get? k = some v := by
  simp [GoMap.get?_set]

theorem GoMap.get?_set_ne {V : Type} (m : GoMap V) (k k2 : String) (v : V) (h : k ≠ k2) :
    (m.set k v).get? k2 = m.get? k2 := by
  simp [GoMap.get?_set, h]

theorem GoMap.mem_values_set {V : Type} (m : GoMap V) (k : String) (v x : V)
    (hx : x ∈ (m.set k v).values) : x = v ∨ x ∈ m.values := by
  induction m with
  | nil => simpa [GoMap.set, GoMap.values] using hx
  | cons e rest ih =>
    obtain ⟨k0, v0⟩ := e
    by_cases h0 : k0 = k
    · simp only [GoMap.set, h0, if_true, GoMap.values, List.map_cons, List.mem_cons] at hx ⊢
      rcases hx with h | h
      · exact Or.inl h
      · exact Or.inr (Or.inr h)
    · simp only [GoMap.set, h0, if_false, GoMap.values, List.map_cons, List.mem_cons] at hx ⊢
      rcases hx with h | h
      · exact Or.inr (Or.inl h)
      · rcases ih h with h2 | h2
        · exact Or.inl h2
        · exact Or.inr (Or.inr h2)

theorem GoMap.mem_keys_set {V : Type} (m : GoMap V) (k : String) (v : V) (x : String)
    (hx : x ∈ (m.set k v).keys) : x = k ∨ x ∈ m.keys := by
  induction m with
  | nil => simpa [GoMap.set, GoMap.keys] using hx
  | cons e rest ih =>
    obtain ⟨k0, v0⟩ := e
    by_cases h0 : k0 = k
    · simp only [GoMap.set, h0, if_true, GoMap.keys, List.map_cons, List.mem_cons] at hx ⊢
      rcases hx with h | h
      · exact Or.inl h
      · exact Or.inr (Or.inr h)
    · simp only [GoMap.set, h0, if_false, GoMap.keys, List.map_cons, List.mem_cons] at hx ⊢
      rcases hx with h | h
      · exact Or.inr (Or.inl h)
      · rcases ih h with h2 | h2
        · exact Or.inl h2
        · exact Or.inr (Or.inr h2)

theorem GoMap.keys_nodup_set {V : Type} (m : GoMap V) (k : String) (v : V)
    (h : m.keys.Nodup) : (m.set k v).keys.Nodup := by
  induction m with
  | nil => simp [GoMap.set, GoMap.keys]
  | cons e rest ih =>
    obtain ⟨k0, v0⟩ := e
    have hk : k0 ∉ GoMap.keys rest ∧ (GoMap.keys rest).Nodup := by
      simpa [GoMap.keys] using h
    by_cases h0 : k0 = k
    · subst h0
      simpa [GoMap.set, GoMap.keys] using h
    · have hnot : k0 ∉ GoMap.keys (GoMap.set rest k v) := by
        intro hmem
        rcases GoMap.mem_keys_set rest k v k0 hmem with h1 | h1
        · exact h0 h1
        · exact hk.1 h1
      have hrec := ih hk.2
      simp only [GoMap.set, h0, if_false]
      exact List.nodup_cons.mpr ⟨hnot, hrec⟩

theorem GoMap.pairwise_values_set {V : Type} (R : V → V → Prop) (hsymm : ∀ a b, R a b → R b a)
    (m : GoMap V) (k : String) (v : V) (hnew : ∀ x ∈ m.values, R x v)
    (h : m.values.Pairwise R) : (m.set k v).values.Pairwise R := by
  induction m with
  | nil => simp [GoMap.set, GoMap.values]
  | cons e rest ih =>
    obtain ⟨k0, v0⟩ := e
    have hp : (∀ x ∈ GoMap.values rest, R v0 x) ∧ (GoMap.values rest).Pairwise R := by
      simpa [GoMap.values] using h
    have hnew2 : ∀ x ∈ GoMap.values rest, R x v := by
      intro x hx
      exact hnew x (by simp only [GoMap.values, List.map_cons, List.mem_cons]; exact Or.inr hx)
    by_cases h0 : k0 = k
    · simp only [GoMap.set, h0, if_true]
      exact List.pairwise_cons.mpr ⟨fun x hx => hsymm _ _ (hnew2 x hx), hp.2⟩
    · simp only [GoMap.set, h0, if_false]
      refine List.pairwise_cons.mpr ⟨?_, ih hnew2 hp.2⟩
      intro x hx
      rcases GoMap.mem_values_set rest k v x hx with h1 | h1
      · subst h1
        exact hnew v0 (by simp [GoMap.values])
      · exact hp.1 x h1

theorem GoMap.get?_eq_some_mem {V : Type} (m : GoMap V) (k : String) (v : V)
    (h : m.get? k = some v) : (k, v) ∈ m := by
  induction m with
  | nil => simp [GoMap.get?] at h
  | cons e rest ih =>
    obtain ⟨k0, v0⟩ := e
    by_cases h0 : k0 = k
    · simp [GoMap.get?, h0] at h
      simp [h0, h]
    · simp [GoMap.get?, h0] at h
      exact List.mem_cons_of_mem _ (ih h)

/-! ## Lemmas on identifiers -/

theorem wrapInt64_of_inRange (x : Int) (h0 : -2 ^ 63 ≤ x) (h1 : x < 2 ^ 63) :
    wrapInt64 x = x := by
  unfold wrapInt64
  omega

theorem lettersAt_isSome (idx : Int) (h0 : 0 ≤ idx) (h1 : idx < 62) :
    ∃ c, lettersAt idx = some c := by
  have hlen : letters.toList.length = 62 := by decide
  have hlt : idx.toNat < letters.toList.length := by omega
  refine ⟨letters.toList[idx.toNat], ?_⟩
  have hneg : ¬ idx < 0 := by omega
  simp only [lettersAt, hneg, if_false]
  exact List.getElem?_eq_getElem hlt

theorem randomByte_isSome (now : Time) (i : Nat) (h0 : 0 ≤ now.nsec)
    (h1 : now.nsec < 2 ^ 63 - 6) (hi : i < 6) : ∃ c, randomByte now i = some c := by
  have hu : now.UnixNano = now.nsec := wrapInt64_of_inRange _ (by omega) (by omega)
  have hs : wrapInt64 (now.UnixNano + (i : Int)) = now.nsec + (i : Int) := by
    rw [hu]
    exact wrapInt64_of_inRange _ (by omega) (by omega)
  have hlen : (letters.length : Int) = 62 := by decide
  simp only [randomByte, hs, hlen]
  apply lettersAt_isSome
  · exact Int.tmod_nonneg _ (by omega)
  · exact Int.tmod_lt_of_pos _ (by omega)

theorem randomStringFrom_isSome (clk : Nat → Time) (k i : Nat) (hik : i + k ≤ 6)
    (h : ∀ j, j < 6 → 0 ≤ (clk j).nsec ∧ (clk j).nsec < 2 ^ 63 - 6) :
    ∃ cs, randomStringFrom clk i k = some cs := by
  induction k generalizing i with
  | zero => exact ⟨[], rfl⟩
  | succ k ih =>
    obtain ⟨c, hc⟩ := randomByte_isSome (clk i) i (h i (by omega)).1 (h i (by omega)).2 (by omega)
    obtain ⟨cs, hcs⟩ := ih (i + 1) (by omega)
    exact ⟨c :: cs, by simp [randomStringFrom, hc, hcs]⟩

theorem generateID_isSome (clk : Nat → Time) (h : ClockInRange clk) :
    ∃ id, generateID clk = some id := by
  obtain ⟨cs, hcs⟩ := randomStringFrom_isSome (fun k => clk (k + 1)) 6 0 (by omega)
    (fun j hj => h (j + 1) (by omega))
  exact ⟨(clk 0).Format ++ "-" ++ String.mk cs, by simp [generateID, randomString, hcs]⟩

/-! ## Registration -/

theorem userExists_iff (users : GoMap User) (req : RegisterRequest) :
    userExists users req = true ↔
      ∃ user ∈ users.values, user.Email = req.Email ∨ user.Username = req.Username := by
  simp [userExists, List.any_eq_true]

/-- The store `registerHandler` leaves is the one it found, or that store with one
user added under a generated id, when no stored user has the email or the username of
the request. -/
theorem registerHandler_store (hash : String → Option String) (clk : Nat → Time)
    (users : GoMap User) (bound : Except String RegisterRequest) :
    (registerHandler hash clk users bound).2 = users ∨
    ∃ req id user, (registerHandler hash clk users bound).2 = users.set id user ∧
      userExists users req = false ∧ user.Email = req.Email ∧ user.Username = req.Username := by
  cases bound with
  | error err => exact Or.inl rfl
  | ok req =>
    cases hex : userExists users req with
    | true => left; simp [registerHandler, hex]
    | false =>
      cases hh : hash req.Password with
      | none => left; simp [registerHandler, hex, hh]
      | some hashed =>
        cases hid : generateID clk with
        | none => left; simp [registerHandler, hex, hh, hid]
        | some id =>
          right
          exact ⟨req, id, ⟨id, req.Username, req.Email, hashed, clk 7⟩,
            by simp [registerHandler, hex, hh, hid], hex, rfl, rfl⟩

/-- C1: for a decoded registration request whose password hashes, `registerHandler`
answers 409 exactly when some stored user has the same email or the same username;
on 409 the store is unchanged; otherwise the answer is 201 and the store is the old
one with a user of the given username and email set under the generated id. -/
theorem C1_registerHandler_conflict_iff (hash : String → Option String) (clk : Nat → Time)
    (users : GoMap User) (req : RegisterRequest) (hashed : String)
    (hhash : hash req.Password = some hashed) (hclk : ClockInRange clk) :
    ((registerHandler hash clk users (.ok req)).1.status = 409 ↔
      ∃ user ∈ users.values, user.Email = req.Email ∨ user.Username = req.Username) ∧
    ((registerHandler hash clk users (.ok req)).1.status = 409 →
      (registerHandler hash clk users (.ok req)).2 = users) ∧
    ((registerHandler hash clk users (.ok req)).1.status ≠ 409 →
      (registerHandler hash clk users (.ok req)).1.status = 201 ∧
      ∃ id, generateID clk = some id ∧
        (registerHandler hash clk users (.ok req)).1.body =
          .userCreated "User created successfully" id req.Username req.Email ∧
        (registerHandler hash clk users (.ok req)).2 =
          users.set id ⟨id, req.Username, req.Email, hashed, clk 7⟩ ∧
        (registerHandler hash clk users (.ok req)).2.get? id =
          some ⟨id, req.Username, req.Email, hashed, clk 7⟩) := by
  obtain ⟨id, hid⟩ := generateID_isSome clk hclk
  rw [← userExists_iff]
  cases hex : userExists users req with
  | true => simp [registerHandler, hex]
  | false =>
    simp only [registerHandler, hex, hhash, hid]
    refine ⟨by simp, by simp, ?_⟩
    intro _
    exact ⟨rfl, id, rfl, rfl, rfl, GoMap.get?_set_self _ _ _⟩

/-- C1 at a concrete store: a second registration with the email of a stored user
is answered 409. -/
theorem C1_registerHandler_conflict_iff_witness :
    sampleHash aliceRequest.Password = some "bcrypt:secret1" ∧ ClockInRange frozenClock ∧
    (registerHandler sampleHash frozenClock
      [("u1", ⟨"u1", "bob", "alice@example.com", "h", tick⟩)] (.ok aliceRequest)).1.status = 409 :=
  ⟨by decide, by decide,
    (C1_registerHandler_conflict_iff sampleHash frozenClock
      [("u1", ⟨"u1", "bob", "alice@example.com", "h", tick⟩)] aliceRequest "bcrypt:secret1"
      (by decide) (by decide)).1.mpr
      ⟨⟨"u1", "bob", "alice@example.com", "h", tick⟩, by simp [GoMap.values], Or.inl (by decide)⟩⟩

/-! ## Uniqueness of emails and usernames -/

theorem registerHandler_preserves (hash : String → Option String) (clk : Nat → Time)
    (users : GoMap User) (bound : Except String RegisterRequest)
    (h : users.keys.Nodup ∧ users.values.Pairwise DistinctUsers) :
    (registerHandler hash clk users bound).2.keys.Nodup ∧
      (registerHandler hash clk users bound).2.values.Pairwise DistinctUsers := by
  rcases registerHandler_store hash clk users bound with heq | ⟨req, id, user, heq, hex, he, hu⟩
  · rw [heq]; exact h
  · rw [heq]
    refine ⟨GoMap.keys_nodup_set _ _ _ h.1, ?_⟩
    apply GoMap.pairwise_values_set DistinctUsers
      (fun a b hab => ⟨fun e => hab.1 e.symm, fun e => hab.2 e.symm⟩) _ _ _ _ h.2
    intro x hx
    have hno : ¬ ∃ user ∈ users.values, user.Email = req.Email ∨ user.Username = req.Username := by
      rw [← userExists_iff, hex]; simp
    constructor
    · intro e
      exact hno ⟨x, hx, Or.inl (by rw [e, he])⟩
    · intro e
      exact hno ⟨x, hx, Or.inr (by rw [e, hu])⟩

theorem reachableUsers_invariant (users : GoMap User) (h : ReachableUsers users) :
    users.keys.Nodup ∧ users.values.Pairwise DistinctUsers := by
  induction h with
  | empty => simp [GoMap.keys, GoMap.values]
  | register hash clk users bound _ ih => exact registerHandler_preserves hash clk users bound ih
  | reorder users users2 hperm _ ih =>
    constructor
    · exact (List.Perm.nodup_iff (List.Perm.map Prod.fst hperm)).mp ih.1
    · exact (List.Perm.pairwise_iff
        (fun hab => ⟨fun e => hab.1 e.symm, fun e => hab.2 e.symm⟩)
        (List.Perm.map Prod.snd hperm)).mp ih.2

theorem pairwise_of_entries {V : Type} (R : V → V → Prop) (hsymm : ∀ a b, R a b → R b a)
    (m : GoMap V) (hp : m.values.Pairwise R) (k1 k2 : String) (v1 v2 : V)
    (h1 : (k1, v1) ∈ m) (h2 : (k2, v2) ∈ m) (hne : k1 ≠ k2) : R v1 v2 := by
  have hp2 : m.Pairwise (fun a b => R a.2 b.2) := by
    simpa [GoMap.values, List.pairwise_map] using hp
  have hs : Symmetric (fun a b : String × V => R a.2 b.2) := fun a b hab => hsymm _ _ hab
  exact List.Pairwise.forall hs hp2 h1 h2 (fun e => hne (congrArg Prod.fst e))

/-- C2: in every user store reachable from the empty one by calls of `registerHandler`
(whatever the requests, hashes and clock readings, hence whatever ids are generated),
keys are distinct and no two stored users share an email or a username. -/
theorem C2_reachable_users_unique (users : GoMap User) (h : ReachableUsers users) :
    users.keys.Nodup ∧ users.values.Pairwise DistinctUsers ∧
    ∀ id1 id2 u1 u2, id1 ≠ id2 → users.get? id1 = some u1 → users.get? id2 = some u2 →
      u1.Email ≠ u2.Email ∧ u1.Username ≠ u2.Username := by
  have hinv := reachableUsers_invariant users h
  refine ⟨hinv.1, hinv.2, ?_⟩
  intro id1 id2 u1 u2 hne h1 h2
  exact pairwise_of_entries DistinctUsers
    (fun a b hab => ⟨fun e => hab.1 e.symm, fun e => hab.2 e.symm⟩) users hinv.2 id1 id2 u1 u2
    (GoMap.get?_eq_some_mem _ _ _ h1) (GoMap.get?_eq_some_mem _ _ _ h2) hne

/-- C2 at a concrete store: two registrations made within the same clock tick (the
second one is given the id of the first). -/
theorem C2_reachable_users_unique_witness :
    ReachableUsers (registerHandler sampleHash frozenClock
      (registerHandler sampleHash frozenClock [] (.ok aliceRequest)).2 (.ok bobRequest)).2 ∧
    (registerHandler sampleHash frozenClock
      (registerHandler sampleHash frozenClock [] (.ok aliceRequest)).2 (.ok bobRequest)).2.keys.Nodup :=
  ⟨.register _ _ _ _ (.register _ _ _ _ .empty),
   (C2_reachable_users_unique _ (.register _ _ _ _ (.register _ _ _ _ .empty))).1⟩

/-- Two registrations within one clock tick: the second user takes the id of the
first and replaces it in the store. -/
theorem registerHandler_repeated_id :
    (registerHandler sampleHash frozenClock
      (registerHandler sampleHash frozenClock [] (.ok aliceRequest)).2 (.ok bobRequest)).2 =
    [("20231114221320-ABCDEF",
      ⟨"20231114221320-ABCDEF", "bob", "bob@example.com", "bcrypt:secret2", tick⟩)] := by
  decide

/-! ## Task collections -/

theorem findTask_eq_none (taskID : String) (l : List Task) :
    findTask taskID l = none ↔ ∀ t ∈ l, t.ID ≠ taskID := by
  induction l with
  | nil => simp [findTask]
  | cons t rest ih =>
    by_cases h : t.ID = taskID
    · simp [findTask, h]
    · simp [findTask, h, ih]

/-- A successful search splits the collection at the first task with the id. -/
theorem findTask_eq_some (taskID : String) (l : List Task) (i : Nat)
    (h : findTask taskID l = some i) :
    ∃ pre t post, l = pre ++ t :: post ∧ pre.length = i ∧ t.ID = taskID ∧
      ∀ x ∈ pre, x.ID ≠ taskID := by
  induction l generalizing i with
  | nil => simp [findTask] at h
  | cons t rest ih =>
    by_cases ht : t.ID = taskID
    · simp [findTask, ht] at h
      exact ⟨[], t, rest, rfl, by simp [h], ht, by simp⟩
    · simp only [findTask, ht, if_false] at h
      cases hj : findTask taskID rest with
      | none => simp [hj] at h
      | some j =>
      have hji : j + 1 = i := by simpa [hj] using h
      obtain ⟨pre, t2, post, hl, hlen, hid, hpre⟩ := ih j hj
      refine ⟨t :: pre, t2, post, by simp [hl], by simp [hlen, hji], hid, ?_⟩
      intro x hx
      rcases List.mem_cons.mp hx with hx | hx
      · rw [hx]; exact ht
      · exact hpre x hx

theorem findTask_split (taskID : String) (pre post : List Task) (t : Task)
    (hid : t.ID = taskID) (hpre : ∀ x ∈ pre, x.ID ≠ taskID) :
    findTask taskID (pre ++ t :: post) = some pre.length := by
  induction pre with
  | nil => simp [findTask, hid]
  | cons p rest ih =>
    have hp : p.ID ≠ taskID := hpre p (by simp)
    have hrest : ∀ x ∈ rest, x.ID ≠ taskID := fun x hx => hpre x (by simp [hx])
    simp [findTask, hp, ih hrest]

/-- A collection that holds a task with the id splits at the first such task. -/
theorem exists_first_task (taskID : String) (l : List Task) (h : ∃ t ∈ l, t.ID = taskID) :
    ∃ pre t post, l = pre ++ t :: post ∧ t.ID = taskID ∧ (∀ x ∈ pre, x.ID ≠ taskID) ∧
      findTask taskID l = some pre.length := by
  cases hf : findTask taskID l with
  | none =>
    obtain ⟨t, ht, hid⟩ := h
    exact absurd hid ((findTask_eq_none taskID l).mp hf t ht)
  | some i =>
    obtain ⟨pre, t, post, hl, hlen, hid, hpre⟩ := findTask_eq_some taskID l i hf
    exact ⟨pre, t, post, hl, hid, hpre, by rw [hlen]⟩

theorem take_drop_split (pre post : List Task) (t : Task) :
    (pre ++ t :: post).take pre.length ++ (pre ++ t :: post).drop (pre.length + 1) = pre ++ post := by
  simp [List.take_append_eq_append_take, List.drop_append_eq_append_drop]

theorem modify_split (f : Task → Task) (pre post : List Task) (t : Task) :
    (pre ++ t :: post).modify f pre.length = pre ++ f t :: post := by
  induction pre with
  | nil => rfl
  | cons p rest ih => simpa [List.modify_succ_cons] using ih

theorem get?_split (pre post : List Task) (t : Task) :
    (pre ++ t :: post).get? pre.length = some t := by
  induction pre with
  | nil => rfl
  | cons p rest ih => simpa using ih

/-! ## Task handlers -/

theorem applyUpdates_eq_spec (stored updates : Task) :
    applyUpdates stored updates = partialUpdateSpec stored updates := by
  obtain ⟨id, title, desc, status, prio, due, uid, created⟩ := stored
  by_cases h1 : updates.Title = "" <;> by_cases h2 : updates.Description = "" <;>
    by_cases h3 : updates.Status = "" <;> by_cases h4 : updates.Priority = "" <;>
    by_cases h5 : updates.DueDate = Time.zero <;>
    simp [applyUpdates, partialUpdateSpec, Time.IsZero, h1, h2, h3, h4, h5]

theorem updateTaskHandler_store (tasks : GoMap (List Task)) (userID taskID : String)
    (bound : Except String Task) :
    (updateTaskHandler tasks userID taskID bound).2 = tasks ∨
    ∃ l, (updateTaskHandler tasks userID taskID bound).2 = tasks.set userID l := by
  cases bound with
  | error err => exact Or.inl rfl
  | ok updates =>
    cases hg : tasks.get? userID with
    | none => left; simp [updateTaskHandler, hg]
    | some userTasks =>
      cases hf : findTask taskID userTasks with
      | none => left; simp [updateTaskHandler, hg, hf]
      | some i =>
        right
        exact ⟨userTasks.modify (fun task => applyUpdates task updates) i,
          by simp [updateTaskHandler, hg, hf]⟩

theorem deleteTaskHandler_store (tasks : GoMap (List Task)) (userID taskID : String) :
    (deleteTaskHandler tasks userID taskID).2 = tasks ∨
    ∃ l, (deleteTaskHandler tasks userID taskID).2 = tasks.set userID l := by
  cases hg : tasks.get? userID with
  | none => left; simp [deleteTaskHandler, hg]
  | some userTasks =>
    cases hf : findTask taskID userTasks with
    | none => left; simp [deleteTaskHandler, hg, hf]
    | some i =>
      right
      exact ⟨userTasks.take i ++ userTasks.drop (i + 1), by simp [deleteTaskHandler, hg, hf]⟩

/-- The answer of `updateTaskHandler` is determined by the collection of the caller. -/
theorem updateTaskHandler_response_congr (tasks tasks2 : GoMap (List Task))
    (userID taskID : String) (bound : Except String Task)
    (h : tasks2.get? userID = tasks.get? userID) :
    (updateTaskHandler tasks2 userID taskID bound).1 =
      (updateTaskHandler tasks userID taskID bound).1 := by
  cases bound with
  | error err => rfl
  | ok updates =>
    cases hg : tasks.get? userID with
    | none => simp [updateTaskHandler, h, hg]
    | some userTasks =>
      cases hf : findTask taskID userTasks with
      | none => simp [updateTaskHandler, h, hg, hf]
      | some i => simp [updateTaskHandler, h, hg, hf]

/-- The answer of `deleteTaskHandler` is determined by the collection of the caller. -/
theorem deleteTaskHandler_response_congr (tasks tasks2 : GoMap (List Task))
    (userID taskID : String) (h : tasks2.get? userID = tasks.get? userID) :
    (deleteTaskHandler tasks2 userID taskID).1 = (deleteTaskHandler tasks userID taskID).1 := by
  cases hg : tasks.get? userID with
  | none => simp [deleteTaskHandler, h, hg]
  | some userTasks =>
    cases hf : findTask taskID userTasks with
    | none => simp [deleteTaskHandler, h, hg, hf]
    | some i => simp [deleteTaskHandler, h, hg, hf]

theorem updateTaskHandler_absent (tasks : GoMap (List Task)) (userID taskID : String)
    (bound : Except String Task)
    (h : ∀ l, tasks.get? userID = some l → ∀ t ∈ l, t.ID ≠ taskID) :
    (updateTaskHandler tasks userID taskID bound).2 = tasks ∧
    ∀ updates, bound = .ok updates →
      (updateTaskHandler tasks userID taskID bound).1.status = 404 := by
  cases bound with
  | error err => exact ⟨rfl, fun _ hb => by cases hb⟩
  | ok updates =>
    cases hg : tasks.get? userID with
    | none => simp [updateTaskHandler, hg]
    | some userTasks =>
      have hf : findTask taskID userTasks = none :=
        (findTask_eq_none taskID userTasks).mpr (h userTasks hg)
      simp [updateTaskHandler, hg, hf]

theorem deleteTaskHandler_absent (tasks : GoMap (List Task)) (userID taskID : String)
    (h : ∀ l, tasks.get? userID = some l → ∀ t ∈ l, t.ID ≠ taskID) :
    (deleteTaskHandler tasks userID taskID).2 = tasks ∧
    (deleteTaskHandler tasks userID taskID).1.status = 404 := by
  cases hg : tasks.get? userID with
  | none => simp [deleteTaskHandler, hg]
  | some userTasks =>
    have hf : findTask taskID userTasks = none :=
      (findTask_eq_none taskID userTasks).mpr (h userTasks hg)
    simp [deleteTaskHandler, hg, hf]

/-- C3: for distinct owners A and B, `updateTaskHandler` and `deleteTaskHandler` under A
leave the collection of B as it was; when the collection of A holds no task with the id
(as when the id occurs only in the collection of B) they answer 404 and leave the whole
store unchanged; `getTasksHandler` under A returns the collection of A; and none of the
three answers depends on what the collection of B holds. -/
theorem C3_no_cross_owner_access (tasks : GoMap (List Task)) (A B taskID : String)
    (bound : Except String Task) (updates : Task) (hAB : A ≠ B) :
    (updateTaskHandler tasks A taskID bound).2.get? B = tasks.get? B ∧
    (deleteTaskHandler tasks A taskID).2.get? B = tasks.get? B ∧
    ((∀ l, tasks.get? A = some l → ∀ t ∈ l, t.ID ≠ taskID) →
      (updateTaskHandler tasks A taskID (.ok updates)).1.status = 404 ∧
      (updateTaskHandler tasks A taskID bound).2 = tasks ∧
      (deleteTaskHandler tasks A taskID).1.status = 404 ∧
      (deleteTaskHandler tasks A taskID).2 = tasks) ∧
    getTasksHandler tasks A = ⟨200, .tasks (tasks.get? A)⟩ ∧
    (∀ l, getTasksHandler (tasks.set B l) A = getTasksHandler tasks A ∧
      (updateTaskHandler (tasks.set B l) A taskID bound).1 =
        (updateTaskHandler tasks A taskID bound).1 ∧
      (deleteTaskHandler (tasks.set B l) A taskID).1 = (deleteTaskHandler tasks A taskID).1) := by
  refine ⟨?_, ?_, ?_, rfl, ?_⟩
  · rcases updateTaskHandler_store tasks A taskID bound with h | ⟨l, h⟩
    · rw [h]
    · rw [h, GoMap.get?_set_ne _ _ _ _ hAB]
  · rcases deleteTaskHandler_store tasks A taskID with h | ⟨l, h⟩
    · rw [h]
    · rw [h, GoMap.get?_set_ne _ _ _ _ hAB]
  · intro habs
    exact ⟨(updateTaskHandler_absent tasks A taskID (.ok updates) habs).2 updates rfl,
      (updateTaskHandler_absent tasks A taskID bound habs).1,
      (deleteTaskHandler_absent tasks A taskID habs).2,
      (deleteTaskHandler_absent tasks A taskID habs).1⟩
  · intro l
    have hget : (tasks.set B l).get? A = tasks.get? A :=
      GoMap.get?_set_ne _ _ _ _ (fun e => hAB e.symm)
    exact ⟨by simp [getTasksHandler, hget],
      updateTaskHandler_response_congr _ _ _ _ _ hget,
      deleteTaskHandler_response_congr _ _ _ _ hget⟩

/-- C3 at a concrete store: alice deleting the id of a task of bob is answered 404
and the store stays as it was. -/
theorem C3_no_cross_owner_access_witness :
    "alice" ≠ "bob" ∧
    (∀ l, twoOwners.get? "alice" = some l → ∀ t ∈ l, t.ID ≠ "b1") ∧
    (deleteTaskHandler twoOwners "alice" "b1").1.status = 404 ∧
    (deleteTaskHandler twoOwners "alice" "b1").2 = twoOwners :=
  have habs : ∀ l, twoOwners.get? "alice" = some l → ∀ t ∈ l, t.ID ≠ "b1" := by
    intro l hl
    have hl2 : [storedTask "a1" "A" "todo" "alice", storedTask "a2" "B" "todo" "alice"] = l := by
      simpa [twoOwners, GoMap.get?] using hl
    subst hl2
    decide
  ⟨by decide, habs,
    ((C3_no_cross_owner_access twoOwners "alice" "bob" "b1" (.ok (payload "" "done"))
      (payload "" "done") (by decide)).2.2.1 habs).2.2⟩

/-- C4: when the collection of the owner holds a task with the id, `updateTaskHandler`
answers 200 with the first such task updated field by field: title, description,
status and priority take the payload value when it is non-empty, the due date takes it
when it is non-zero, and id, owner and creation time stay; the collection afterwards
holds the returned task in the place of the stored one. -/
theorem C4_partial_update (tasks : GoMap (List Task)) (owner id : String) (updates : Task)
    (userTasks : List Task) (hget : tasks.get? owner = some userTasks)
    (hmem : ∃ t ∈ userTasks, t.ID = id) :
    ∃ pre stored post, userTasks = pre ++ stored :: post ∧ stored.ID = id ∧
      (∀ x ∈ pre, x.ID ≠ id) ∧
      (updateTaskHandler tasks owner id (.ok updates)).1 =
        ⟨200, .task (partialUpdateSpec stored updates)⟩ ∧
      (updateTaskHandler tasks owner id (.ok updates)).2.get? owner =
        some (pre ++ partialUpdateSpec stored updates :: post) ∧
      findTask id (pre ++ partialUpdateSpec stored updates :: post) = some pre.length ∧
      (pre ++ partialUpdateSpec stored updates :: post).get? pre.length =
        some (partialUpdateSpec stored updates) ∧
      (updateTaskHandler tasks owner id (.ok updates)).2 =
        tasks.set owner (pre ++ partialUpdateSpec stored updates :: post) := by
  obtain ⟨pre, stored, post, hl, hid, hpre, hf⟩ := exists_first_task id userTasks hmem
  have hmod : List.modify (fun task => applyUpdates task updates) pre.length userTasks =
      pre ++ partialUpdateSpec stored updates :: post := by
    rw [hl, modify_split, applyUpdates_eq_spec]
  have hstore : (updateTaskHandler tasks owner id (.ok updates)).2 =
      tasks.set owner (pre ++ partialUpdateSpec stored updates :: post) := by
    simp only [updateTaskHandler, hget, hf, hmod]
  refine ⟨pre, stored, post, hl, hid, hpre, ?_, ?_, ?_, get?_split _ _ _, hstore⟩
  · simp only [updateTaskHandler, hget, hf, hmod, get?_split, Option.getD_some]
  · rw [hstore, GoMap.get?_set_self]
  · exact findTask_split id pre post _ hid hpre

/-- C4 on the example of the specification: a stored task with title A and status
todo, updated with a payload that only gives the status done, keeps its title. -/
theorem C4_partial_update_witness :
    twoOwners.get? "alice" =
      some [storedTask "a1" "A" "todo" "alice", storedTask "a2" "B" "todo" "alice"] ∧
    (∃ t ∈ [storedTask "a1" "A" "todo" "alice", storedTask "a2" "B" "todo" "alice"], t.ID = "a1") ∧
    ∃ pre stored post,
      [storedTask "a1" "A" "todo" "alice", storedTask "a2" "B" "todo" "alice"] =
        pre ++ stored :: post ∧ stored.ID = "a1" ∧
      (updateTaskHandler twoOwners "alice" "a1" (.ok (payload "" "done"))).1 =
        ⟨200, .task (partialUpdateSpec stored (payload "" "done"))⟩ :=
  ⟨by decide, ⟨storedTask "a1" "A" "todo" "alice", by simp, by decide⟩,
    (C4_partial_update twoOwners "alice" "a1" (payload "" "done")
      [storedTask "a1" "A" "todo" "alice", storedTask "a2" "B" "todo" "alice"] (by decide)
      ⟨storedTask "a1" "A" "todo" "alice", by simp, by decide⟩).imp
      (fun _ h => h.imp (fun _ h => h.imp (fun _ h => ⟨h.1, h.2.1, h.2.2.2.1⟩)))⟩

/-- The example of the specification, evaluated: title A is kept, status becomes done. -/
theorem updateTaskHandler_example :
    (updateTaskHandler twoOwners "alice" "a1" (.ok (payload "" "done"))).1 =
      ⟨200, .task (storedTask "a1" "A" "done" "alice")⟩ := by
  decide

/-- C10: when the collection of the owner holds a task with the id, `deleteTaskHandler`
answers 200 and the collection afterwards is the previous one without the first task
having that id: one task fewer, the others unchanged and in the same order; the
collections of the other owners are untouched. -/
theorem C10_delete_removes_first (tasks : GoMap (List Task)) (owner id : String)
    (userTasks : List Task) (hget : tasks.get? owner = some userTasks)
    (hmem : ∃ t ∈ userTasks, t.ID = id) :
    ∃ pre t post, userTasks = pre ++ t :: post ∧ t.ID = id ∧ (∀ x ∈ pre, x.ID ≠ id) ∧
      (deleteTaskHandler tasks owner id).1 = ⟨200, .message "Task deleted"⟩ ∧
      (deleteTaskHandler tasks owner id).2 = tasks.set owner (pre ++ post) ∧
      (deleteTaskHandler tasks owner id).2.get? owner = some (pre ++ post) ∧
      (pre ++ post).length + 1 = userTasks.length ∧
      (pre ++ post).Sublist userTasks ∧
      ∀ other, other ≠ owner →
        (deleteTaskHandler tasks owner id).2.get? other = tasks.get? other := by
  obtain ⟨pre, t, post, hl, hid, hpre, hf⟩ := exists_first_task id userTasks hmem
  have htd : List.take pre.length userTasks ++ List.drop (pre.length + 1) userTasks =
      pre ++ post := by
    rw [hl, take_drop_split]
  have hstore : (deleteTaskHandler tasks owner id).2 = tasks.set owner (pre ++ post) := by
    simp only [deleteTaskHandler, hget, hf, htd]
  refine ⟨pre, t, post, hl, hid, hpre, ?_, hstore, ?_, ?_, ?_, ?_⟩
  · simp only [deleteTaskHandler, hget, hf]
  · rw [hstore, GoMap.get?_set_self]
  · rw [hl]; simp; omega
  · rw [hl]
    exact List.Sublist.append (List.Sublist.refl pre) (List.sublist_cons_self t post)
  · intro other hne
    rw [hstore, GoMap.get?_set_ne _ _ _ _ (fun e => hne e.symm)]

/-- C10 at a concrete store: deleting the first task of alice leaves her second one. -/
theorem C10_delete_removes_first_witness :
    twoOwners.get? "alice" =
      some [storedTask "a1" "A" "todo" "alice", storedTask "a2" "B" "todo" "alice"] ∧
    (∃ t ∈ [storedTask "a1" "A" "todo" "alice", storedTask "a2" "B" "todo" "alice"], t.ID = "a1") ∧
    (deleteTaskHandler twoOwners "alice" "a1").1 = ⟨200, .message "Task deleted"⟩ :=
  ⟨by decide, ⟨storedTask "a1" "A" "todo" "alice", by simp, by decide⟩,
    (C10_delete_removes_first twoOwners "alice" "a1"
      [storedTask "a1" "A" "todo" "alice", storedTask "a2" "B" "todo" "alice"] (by decide)
      ⟨storedTask "a1" "A" "todo" "alice", by simp, by decide⟩).elim
      (fun _ h => h.elim (fun _ h => h.elim (fun _ h => h.2.2.2.1)))⟩

/-! ## Creation, listing and identifiers -/

theorem createTaskHandler_ok (clk : Nat → Time) (tasks : GoMap (List Task)) (owner : String)
    (p : Task) (h : ClockInRange clk) :
    ∃ id, generateID clk = some id ∧
      createTaskHandler clk tasks owner (.ok p) =
        (⟨201, .task { p with ID := id, UserID := owner, CreatedAt := clk 7 }⟩,
          tasks.set owner ((tasks.get? owner).getD [] ++
            [{ p with ID := id, UserID := owner, CreatedAt := clk 7 }])) := by
  obtain ⟨id, hid⟩ := generateID_isSome clk h
  refine ⟨id, hid, ?_⟩
  unfold createTaskHandler
  simp only [hid]

/-- Listing after two creations: after `createTaskHandler` creates T1 and then T2 under
an owner, `getTasksHandler` returns the previous collection of the owner followed by T1 and
then T2, in the order of creation (for an empty or absent collection exactly T1, T2);
T1 and T2 carry the creation times read from the clock. -/
theorem getTasksHandler_after_two_creates (clk1 clk2 : Nat → Time) (tasks : GoMap (List Task))
    (owner : String) (p1 p2 : Task) (h1 : ClockInRange clk1) (h2 : ClockInRange clk2) :
    ∃ T1 T2,
      (createTaskHandler clk1 tasks owner (.ok p1)).1 = ⟨201, .task T1⟩ ∧
      (createTaskHandler clk2 (createTaskHandler clk1 tasks owner (.ok p1)).2 owner (.ok p2)).1 =
        ⟨201, .task T2⟩ ∧
      T1.CreatedAt = clk1 7 ∧ T2.CreatedAt = clk2 7 ∧
      getTasksHandler
          (createTaskHandler clk2 (createTaskHandler clk1 tasks owner (.ok p1)).2 owner (.ok p2)).2
          owner =
        ⟨200, .tasks (some ((tasks.get? owner).getD [] ++ [T1, T2]))⟩ := by
  obtain ⟨id1, _, hc1⟩ := createTaskHandler_ok clk1 tasks owner p1 h1
  obtain ⟨id2, _, hc2⟩ := createTaskHandler_ok clk2
    (createTaskHandler clk1 tasks owner (.ok p1)).2 owner p2 h2
  refine ⟨{ p1 with ID := id1, UserID := owner, CreatedAt := clk1 7 },
    { p2 with ID := id2, UserID := owner, CreatedAt := clk2 7 }, ?_, ?_, rfl, rfl, ?_⟩
  · rw [hc1]
  · rw [hc2]
  · rw [hc2]
    simp only [getTasksHandler, GoMap.get?_set_self]
    rw [hc1]
    simp only [GoMap.get?_set_self, Option.getD_some, List.append_assoc, List.singleton_append]

/-- C6 fails on the code: T1 is created, then T2 one second later, in an empty store;
`getTasksHandler` returns T1 before T2, the older task first, not T2 before T1. -/
theorem C6_lists_oldest_first :
    createdFirst.1 = ⟨201, .task taskOne⟩ ∧
    createdSecond.1 = ⟨201, .task taskTwo⟩ ∧
    taskOne.CreatedAt.nsec < taskTwo.CreatedAt.nsec ∧
    getTasksHandler createdSecond.2 "alice" = ⟨200, .tasks (some [taskOne, taskTwo])⟩ ∧
    getTasksHandler createdSecond.2 "alice" ≠ ⟨200, .tasks (some [taskTwo, taskOne])⟩ := by
  decide

/-- C7 fails on the code: two tasks created under one owner within the same clock
tick are given the same id; both are listed. -/
theorem C7_same_tick_same_id :
    createdOnce.1 =
      ⟨201, .task ⟨"20231114221320-ABCDEF", "T1", "", "todo", "", Time.zero, "alice", tick⟩⟩ ∧
    createdTwice.1 =
      ⟨201, .task ⟨"20231114221320-ABCDEF", "T2", "", "todo", "", Time.zero, "alice", tick⟩⟩ ∧
    getTasksHandler createdTwice.2 "alice" =
      ⟨200, .tasks (some
        [⟨"20231114221320-ABCDEF", "T1", "", "todo", "", Time.zero, "alice", tick⟩,
         ⟨"20231114221320-ABCDEF", "T2", "", "todo", "", Time.zero, "alice", tick⟩])⟩ := by
  decide

/-- Ids also collide on a clock that runs: two calls of `generateID` whose readings
are 62 microseconds apart, within the same second, return the same id. -/
theorem generateID_collision_running :
    generateID (runningClock 0) = some "20231114221320-CFILOR" ∧
    generateID (fun k => ⟨(runningClock 0 k).nsec + 62000⟩) = some "20231114221320-CFILOR" := by
  decide

/-- C5 fails on the code: after the two creations of `createdTwice`, which share an
id, deleting that id succeeds and deleting it a second time succeeds again. -/
theorem C5_second_delete_succeeds :
    (deleteTaskHandler createdTwice.2 "alice" "20231114221320-ABCDEF").1 =
      ⟨200, .message "Task deleted"⟩ ∧
    (deleteTaskHandler (deleteTaskHandler createdTwice.2 "alice" "20231114221320-ABCDEF").2
      "alice" "20231114221320-ABCDEF").1 = ⟨200, .message "Task deleted"⟩ := by
  decide

/-- Where the ids of the collection of the owner are pairwise distinct, a second delete of
the same id is answered 404. -/
theorem deleteTaskHandler_twice_of_nodup (tasks : GoMap (List Task)) (owner id : String)
    (userTasks : List Task) (hget : tasks.get? owner = some userTasks)
    (hnodup : (userTasks.map Task.ID).Nodup)
    (h200 : (deleteTaskHandler tasks owner id).1.status = 200) :
    (deleteTaskHandler (deleteTaskHandler tasks owner id).2 owner id).1.status = 404 := by
  cases hf : findTask id userTasks with
  | none => simp [deleteTaskHandler, hget, hf] at h200
  | some i =>
    obtain ⟨pre, t, post, hl, hlen, hid, hpre⟩ := findTask_eq_some id userTasks i hf
    have htd : List.take i userTasks ++ List.drop (i + 1) userTasks = pre ++ post := by
      rw [← hlen, hl, take_drop_split]
    have hstore : (deleteTaskHandler tasks owner id).2 = tasks.set owner (pre ++ post) := by
      simp only [deleteTaskHandler, hget, hf, htd]
    have hpost : ∀ x ∈ post, x.ID ≠ id := by
      intro x hx hxid
      rw [hl] at hnodup
      simp only [List.map_append, List.map_cons] at hnodup
      have h2 := (List.nodup_append.mp hnodup).2.1
      have h3 := (List.nodup_cons.mp h2).1
      apply h3
      rw [hid, ← hxid]
      exact List.mem_map_of_mem _ hx
    have hnone : findTask id (pre ++ post) = none := by
      rw [findTask_eq_none]
      intro x hx
      rcases List.mem_append.mp hx with hx | hx
      · exact hpre x hx
      · exact hpost x hx
    rw [hstore]
    simp [deleteTaskHandler, GoMap.get?_set_self, hnone]

/-! ## Login -/

theorem findUser_eq_none (users : GoMap User) (email : String) :
    findUser users email = none ↔ ∀ u ∈ users.values, u.Email ≠ email := by
  simp [findUser, List.find?_eq_none]

theorem findUser_eq_some (users : GoMap User) (email : String) (u : User)
    (h : findUser users email = some u) : u ∈ users.values ∧ u.Email = email := by
  refine ⟨List.mem_of_find?_eq_some h, ?_⟩
  have := List.find?_some h
  simpa using this

/-- C9: `loginHandler` gives one and the same answer, 401 with the body
`Invalid credentials` and no token, when no stored user has the email and when the hash
of the user found does not verify against the password; an answer that carries a token
is a 200 for a stored user with that email whose hash verifies. -/
theorem C9_login_failures_indistinguishable (verify : String → String → Bool)
    (sign : MapClaims → Option String) (clk : Nat → Time) (users : GoMap User)
    (req : LoginRequest) :
    ((∀ u ∈ users.values, u.Email ≠ req.Email) →
      loginHandler verify sign clk users (.ok req) = ⟨401, .error "Invalid credentials"⟩) ∧
    (∀ u, findUser users req.Email = some u → verify u.Password req.Password = false →
      loginHandler verify sign clk users (.ok req) = ⟨401, .error "Invalid credentials"⟩) ∧
    ((∀ u ∈ users.values, u.Email = req.Email → verify u.Password req.Password = false) →
      loginHandler verify sign clk users (.ok req) = ⟨401, .error "Invalid credentials"⟩) ∧
    (∀ tok id username email,
      (loginHandler verify sign clk users (.ok req)).body = .login tok id username email →
      (loginHandler verify sign clk users (.ok req)).status = 200 ∧
      ∃ u ∈ users.values, u.Email = req.Email ∧ verify u.Password req.Password = true ∧
        sign (loginClaims u (clk 0)) = some tok ∧
        id = u.ID ∧ username = u.Username ∧ email = u.Email) := by
  refine ⟨?_, ?_, ?_, ?_⟩
  · intro hno
    have hf := (findUser_eq_none users req.Email).mpr hno
    simp [loginHandler, hf]
  · intro u hf hv
    simp [loginHandler, hf, hv]
  · intro hall
    cases hf : findUser users req.Email with
    | none => simp [loginHandler, hf]
    | some u =>
      have hu := findUser_eq_some users req.Email u hf
      simp [loginHandler, hf, hall u hu.1 hu.2]
  · intro tok id username email hbody
    cases hf : findUser users req.Email with
    | none => simp [loginHandler, hf] at hbody
    | some u =>
      have hu := findUser_eq_some users req.Email u hf
      cases hv : verify u.Password req.Password with
      | false => simp [loginHandler, hf, hv] at hbody
      | true =>
        cases hs : sign (loginClaims u (clk 0)) with
        | none => simp [loginHandler, hf, hv, hs] at hbody
        | some t =>
          simp only [loginHandler, hf, hv, hs, Bool.not_true, Bool.false_eq_true, if_false,
            Body.login.injEq] at hbody ⊢
          obtain ⟨h1, h2, h3, h4⟩ := hbody
          exact ⟨trivial, u, hu.1, hu.2, hv, by rw [hs, h1], h2.symm, h3.symm, h4.symm⟩

/-- C9 at a concrete store: a wrong password for the email of alice and a login with
an email nobody has are answered alike. -/
theorem C9_login_failures_indistinguishable_witness :
    (∀ u ∈ oneUser.values, u.Email ≠ "nobody@example.com") ∧
    findUser oneUser "alice@example.com" =
      some ⟨"u1", "alice", "alice@example.com", "bcrypt:secret1", tick⟩ ∧
    sampleVerify "bcrypt:secret1" "wrong" = false ∧
    loginHandler sampleVerify sampleSign frozenClock oneUser (.ok ⟨"alice@example.com", "wrong"⟩) =
      loginHandler sampleVerify sampleSign frozenClock oneUser (.ok ⟨"nobody@example.com", "wrong"⟩) :=
  have hno : ∀ u ∈ oneUser.values, u.Email ≠ "nobody@example.com" := by
    intro u hu
    have hu2 : u = ⟨"u1", "alice", "alice@example.com", "bcrypt:secret1", tick⟩ := by
      simpa [oneUser, GoMap.values] using hu
    subst hu2
    decide
  ⟨hno, by decide, by decide,
    ((C9_login_failures_indistinguishable sampleVerify sampleSign frozenClock oneUser
        ⟨"alice@example.com", "wrong"⟩).2.1
          ⟨"u1", "alice", "alice@example.com", "bcrypt:secret1", tick⟩ (by decide) (by decide)).trans
      ((C9_login_failures_indistinguishable sampleVerify sampleSign frozenClock oneUser
        ⟨"nobody@example.com", "wrong"⟩).1 hno).symm⟩

/-- With the right password the login of alice is answered 200 with a token. -/
theorem loginHandler_example :
    loginHandler sampleVerify sampleSign frozenClock oneUser (.ok ⟨"alice@example.com", "secret1"⟩) =
      ⟨200, .login "token-of-u1" "u1" "alice" "alice@example.com"⟩ := by
  decide

/-! ## Auth gate -/

theorem bearer_append (t : List UInt8) :
    bearer ++ t ≠ [] ∧ ¬ ((bearer ++ t).length < 7 ∨ (bearer ++ t).take 7 ≠ bearer) ∧
      (bearer ++ t).drop 7 = t := by
  have hlen : bearer.length = 7 := rfl
  refine ⟨by simp [bearer], ?_, ?_⟩
  · rw [not_or]
    constructor
    · simp [hlen]
    · rw [← hlen, List.take_left]
      simp
  · rw [← hlen, List.drop_left]

theorem eq_bearer_append (authHeader : List UInt8) (h : authHeader.take 7 = bearer) :
    authHeader = bearer ++ authHeader.drop 7 := by
  rw [← h, List.take_append_drop]

theorem claimString_eq_some (claims : MapClaims) (key s : String) :
    claimString claims key = some s ↔ claims.get? key = some (.str s) := by
  unfold claimString
  cases h : GoMap.get? claims key with
  | none => simp
  | some v => cases v <;> simp

/-- The middleware on a header that starts with the bytes of `Bearer `. -/
theorem authMiddleware_bearer (parse : List UInt8 → Option MapClaims) (t : List UInt8)
    (c : Context) :
    authMiddleware parse (bearer ++ t) c =
      match parse t with
      | none => c.unauthorized "Invalid token"
      | some claims =>
        match claimString claims "user_id" with
        | none => c.panicked
        | some userID =>
          match claimString claims "email" with
          | none => (c.Set "user_id" userID).panicked
          | some email =>
            { (c.Set "user_id" userID).Set "user_email" email with proceeded := true } := by
  obtain ⟨h1, h2, h3⟩ := bearer_append t
  simp only [authMiddleware, h1, h2, h3, if_false]

/-- C8: on a header that is empty, shorter than 7 bytes or that does not start with
`Bearer `, `authMiddleware` answers 401, aborts, and leaves the values of the context
and its not having proceeded as they were; on a header `Bearer ` followed by `t` the
outcome is determined by the result of validating exactly `t`: a failed validation is
answered 401 and aborted, a validated token with string claims `user_id` and `email`
lets the request proceed with these two values in the context, and the request
proceeds in no other case. -/
theorem C8_auth_gate (parse parse2 : List UInt8 → Option MapClaims)
    (authHeader t : List UInt8) (c : Context) :
    ((authHeader = [] ∨ authHeader.length < 7 ∨ ¬ ∃ rest, authHeader = bearer ++ rest) →
      ∃ msg, (authMiddleware parse authHeader c).written = some ⟨401, .error msg⟩ ∧
        (authMiddleware parse authHeader c).aborted = true ∧
        (authMiddleware parse authHeader c).Keys = c.Keys ∧
        (authMiddleware parse authHeader c).proceeded = c.proceeded) ∧
    (parse t = parse2 t →
      authMiddleware parse (bearer ++ t) c = authMiddleware parse2 (bearer ++ t) c) ∧
    (parse t = none →
      authMiddleware parse (bearer ++ t) c = c.unauthorized "Invalid token") ∧
    (∀ claims userID email, parse t = some claims →
      claims.get? "user_id" = some (.str userID) → claims.get? "email" = some (.str email) →
      authMiddleware parse (bearer ++ t) c =
        { (c.Set "user_id" userID).Set "user_email" email with proceeded := true } ∧
      (authMiddleware parse (bearer ++ t) c).GetString "user_id" = userID ∧
      (authMiddleware parse (bearer ++ t) c).GetString "user_email" = email) ∧
    (c.proceeded = false → (authMiddleware parse (bearer ++ t) c).proceeded = true →
      ∃ claims userID email, parse t = some claims ∧
        claims.get? "user_id" = some (.str userID) ∧ claims.get? "email" = some (.str email) ∧
        (authMiddleware parse (bearer ++ t) c).GetString "user_id" = userID ∧
        (authMiddleware parse (bearer ++ t) c).GetString "user_email" = email) := by
  have hok : ∀ claims userID email, parse t = some claims →
      claims.get? "user_id" = some (.str userID) → claims.get? "email" = some (.str email) →
      authMiddleware parse (bearer ++ t) c =
        { (c.Set "user_id" userID).Set "user_email" email with proceeded := true } ∧
      (authMiddleware parse (bearer ++ t) c).GetString "user_id" = userID ∧
      (authMiddleware parse (bearer ++ t) c).GetString "user_email" = email := by
    intro claims userID email hp hu he
    have hu2 := (claimString_eq_some claims "user_id" userID).mpr hu
    have he2 := (claimString_eq_some claims "email" email).mpr he
    have hres : authMiddleware parse (bearer ++ t) c =
        { (c.Set "user_id" userID).Set "user_email" email with proceeded := true } := by
      rw [authMiddleware_bearer]
      simp only [hp, hu2, he2]
    refine ⟨hres, ?_, ?_⟩
    · rw [hres]
      have hne : ¬ "user_email" = "user_id" := by decide
      simp [Context.GetString, Context.Set, GoMap.get?_set, hne]
    · rw [hres]
      simp [Context.GetString, Context.Set, GoMap.get?_set]
  refine ⟨?_, ?_, ?_, hok, ?_⟩
  · intro hbad
    by_cases hempty : authHeader = []
    · exact ⟨"Authorization header required", by simp [authMiddleware, hempty, Context.unauthorized]⟩
    · have hfmt : authHeader.length < 7 ∨ authHeader.take 7 ≠ bearer := by
        rcases hbad with h | h | h
        · exact absurd h hempty
        · exact Or.inl h
        · exact Or.inr (fun htake => h ⟨authHeader.drop 7, eq_bearer_append authHeader htake⟩)
      exact ⟨"Invalid authorization format",
        by simp only [authMiddleware, hempty, hfmt, if_true, if_false, Context.unauthorized,
          and_self]⟩
  · intro hpp
    rw [authMiddleware_bearer, authMiddleware_bearer, hpp]
  · intro hnone
    rw [authMiddleware_bearer, hnone]
  · intro hc hproc
    rw [authMiddleware_bearer] at hproc
    cases hp : parse t with
    | none => simp [hp, Context.unauthorized, hc] at hproc
    | some claims =>
      cases hu : claimString claims "user_id" with
      | none => simp [hp, hu, Context.panicked, hc] at hproc
      | some userID =>
        cases he : claimString claims "email" with
        | none => simp [hp, hu, he, Context.panicked, Context.Set, hc] at hproc
        | some email =>
          have hu2 := (claimString_eq_some claims "user_id" userID).mp hu
          have he2 := (claimString_eq_some claims "email" email).mp he
          exact ⟨claims, userID, email, rfl, hu2, he2, (hok claims userID email hp hu2 he2).2⟩

/-- C8 at concrete headers: `Basic abc` is answered 401 and sets nothing; `Bearer tok`
proceeds as user u1. -/
theorem C8_auth_gate_witness :
    ((∃ msg, (authMiddleware sampleParse [66, 97, 115, 105, 99, 32, 97, 98, 99] Context.new).written =
        some ⟨401, .error msg⟩ ∧
      (authMiddleware sampleParse [66, 97, 115, 105, 99, 32, 97, 98, 99] Context.new).aborted = true ∧
      (authMiddleware sampleParse [66, 97, 115, 105, 99, 32, 97, 98, 99] Context.new).Keys =
        Context.new.Keys ∧
      (authMiddleware sampleParse [66, 97, 115, 105, 99, 32, 97, 98, 99] Context.new).proceeded =
        Context.new.proceeded)) ∧
    (authMiddleware sampleParse (bearer ++ [116, 111, 107]) Context.new).GetString "user_id" = "u1" :=
  ⟨(C8_auth_gate sampleParse sampleParse [66, 97, 115, 105, 99, 32, 97, 98, 99] [116, 111, 107]
      Context.new).1 (Or.inr (Or.inr (by
        rintro ⟨rest, h⟩
        have h2 := congrArg (fun l => l.take 2) h
        revert h2
        simp [bearer]))),
   ((C8_auth_gate sampleParse sampleParse [66, 97, 115, 105, 99, 32, 97, 98, 99] [116, 111, 107]
      Context.new).2.2.2.1
        [("user_id", .str "u1"), ("email", .str "alice@example.com"), ("exp", .num 1700086400)]
        "u1" "alice@example.com" (by decide) (by decide) (by decide)).2.1⟩

/-- The two headers of the witness, evaluated. -/
theorem authMiddleware_examples :
    authMiddleware sampleParse [66, 97, 115, 105, 99, 32, 97, 98, 99] Context.new =
      ⟨[], some ⟨401, .error "Invalid authorization format"⟩, true, false⟩ ∧
    authMiddleware sampleParse [] Context.new =
      ⟨[], some ⟨401, .error "Authorization header required"⟩, true, false⟩ ∧
    authMiddleware sampleParse (bearer ++ [120]) Context.new =
      ⟨[], some ⟨401, .error "Invalid token"⟩, true, false⟩ ∧
    authMiddleware sampleParse (bearer ++ [116, 111, 107]) Context.new =
      ⟨[("user_id", "u1"), ("user_email", "alice@example.com")], none, false, true⟩ := by
  decide

end TaskManager
